import Mathlib

/-!
Verification of the solar-PV alarm pipeline (`src/App.js`).

The core is the `processData` pipeline: filter raw CSV rows, parse them
into readings, classify panel health, compute batch statistics, evaluate
user rules, and aggregate alerts; plus the rule-store operations
`saveRule` / `editRule`.

Modelling conventions:
* JavaScript numbers are modelled as `ℚ`; `NaN` (the result of a failed
  `parseFloat`) is modelled by `Option ℚ` with `none` for `NaN`.  After
  the source coerces `NaN` to `0` (`!isNaN(power) ? power : 0`) the
  stored value is a plain `ℚ`.
* `Math.sqrt` is irrational, so the standard deviation is carried as its
  square `variancePower`; the source's tests `stdDev > 0` and
  `|x - mean| > 2*stdDev` are modelled by the exactly equivalent
  `variance > 0` and `(x - mean)^2 > 4*variance` (both sides of the
  original comparison are non-negative).  The equivalence with the
  square-root form is proved as a theorem below.
* `Date.now()` is modelled by a clock `ℕ → ℤ` sampled at the value of the
  source's `tempId` counter: every `Date.now()` call in `processData` is
  paired with `tempId++`, so the n-th sample is `clock n` and the id it
  produces is `clock n + n`.  The `new Date()` fallback for an
  unparseable timestamp is modelled as `clock n` at the current counter.
* Alert message strings are built by fixed injective templates
  (`toFixed(2)` interpolation); they are modelled structurally by the
  inductive `MsgTemplate`, keeping exactly the data interpolated.
-/

/-- A raw CSV row as PapaParse delivers it: each required column a raw
string.  An absent column (JS `undefined`) is modelled as the empty
string: both are falsy, and the source only ever tests the raw fields for
truthiness before parsing. -/
structure Row where
  id_panel : String
  power : String
  voltage : String
  timestamp : String
  deriving DecidableEq, Repr

/-- JavaScript truthiness of a string field: `false` for the empty string. -/
def strTruthy (s : String) : Bool := s ≠ ""

/-- The filter `row.id_panel && row.power && row.voltage && row.timestamp`
from `processData`: all four fields present and non-empty. -/
def rowValid (r : Row) : Bool :=
  strTruthy r.id_panel && strTruthy r.power && strTruthy r.voltage && strTruthy r.timestamp

/-- Digits taken greedily from the front of a character list, with the rest. -/
def takeDigits : List Char → List ℕ × List Char
  | [] => ([], [])
  | c :: cs =>
    if c.isDigit then
      let (ds, rest) := takeDigits cs
      ((c.toNat - 48) :: ds, rest)
    else ([], c :: cs)

/-- The natural number a digit list denotes. -/
def natOfDigits (ds : List ℕ) : ℕ := ds.foldl (fun a d => 10 * a + d) 0

/-- The fractional value a digit list denotes after a decimal point. -/
def fracOfDigits (ds : List ℕ) : ℚ := (natOfDigits ds : ℚ) / ((10 : ℚ) ^ ds.length)

/-- Modelled from the spec: JavaScript's `parseFloat` builtin (not part of
this repository) as used on the numeric CSV columns — skip leading spaces,
read an optional sign, then digits with an optional decimal fraction;
`none` models `NaN` when no numeric prefix exists. -/
def parseFloatCore (cs0 : List Char) : Option ℚ :=
  let cs1 := cs0.dropWhile (fun c => c = ' ')
  let sgn : ℚ × List Char :=
    match cs1 with
    | '-' :: rest => (-1, rest)
    | '+' :: rest => (1, rest)
    | _ => (1, cs1)
  let (ints, cs2) := takeDigits sgn.2
  match cs2 with
  | '.' :: rest =>
    let (fracs, _) := takeDigits rest
    if ints.isEmpty ∧ fracs.isEmpty then none
    else some (sgn.1 * ((natOfDigits ints : ℚ) + fracOfDigits fracs))
  | _ => if ints.isEmpty then none else some (sgn.1 * (natOfDigits ints : ℚ))

/-- `parseFloat` on a string. -/
def parseFloat (s : String) : Option ℚ := parseFloatCore s.data

/-- Modelled from the spec: `new Date(string)` (browser builtin, not part of
this repository); modelled as an abstract epoch parser accepting decimal
digit strings, `none` (an invalid date) otherwise. -/
def parseDate (s : String) : Option ℤ :=
  match takeDigits s.data with
  | (ds, []) => if ds.isEmpty then none else some (natOfDigits ds : ℤ)
  | _ => none

/-- Panel health status (`'normal' | 'low' | 'offline'`). -/
inductive Status where
  | normal
  | low
  | offline
  deriving DecidableEq, Repr

/-- The classifier from `processData`:
`isNaN(power) || power === 0` → offline, `power < powerThreshold` → low,
else normal.  `power` is the raw `parseFloat` result (`none` = `NaN`). -/
def classify (power : Option ℚ) (powerThreshold : ℚ) : Status :=
  match power with
  | none => Status.offline
  | some p =>
    if p = 0 then Status.offline
    else if p < powerThreshold then Status.low
    else Status.normal

/-- A parsed panel reading (`parsedData` element). -/
structure Reading where
  rid : ℤ
  id_panel : String
  powerOut : ℚ
  voltage : ℚ
  panelStatus : Status
  observedAt : ℤ
  deriving DecidableEq, Repr

/-- A user-defined rule.  `metric`, `condition` and `severity` are the
source's raw strings (`'power' | 'voltage'`, `'<' | '>' | '='`,
`'warning' | 'critical'`). -/
structure Rule where
  rid : ℤ
  metric : String
  condition : String
  value : ℚ
  severity : String
  message : String
  deriving DecidableEq, Repr

/-- The environment a `processData` run reads: the sampled clock, the two
operator thresholds and the current rule list. -/
structure Env where
  clock : ℕ → ℤ
  powerThreshold : ℚ
  voltageThreshold : ℚ
  rules : List Rule

/-- The body of `processData`'s `.map` over valid rows, at counter `n`:
parse the numeric fields, classify, coerce `NaN` to `0`, fall back to the
current time for an unparseable timestamp. -/
def parseRow (env : Env) (n : ℕ) (r : Row) : Reading :=
  let power := parseFloat r.power
  let voltage := parseFloat r.voltage
  let ts := parseDate r.timestamp
  { rid := env.clock n + n
    id_panel := r.id_panel
    powerOut := power.getD 0
    voltage := voltage.getD 0
    panelStatus := classify power env.powerThreshold
    observedAt := ts.getD (env.clock n) }

/-- `processData`'s `.filter(...).map(...)` with the `tempId` counter
threaded: one counter tick per valid row. -/
def parseRows (env : Env) : List Row → ℕ → List Reading × ℕ
  | [], n => ([], n)
  | r :: rs, n =>
    if rowValid r then
      let rest := parseRows env rs (n + 1)
      (parseRow env n r :: rest.1, rest.2)
    else parseRows env rs n

/-- The batch statistics baseline (`powerOutputs`): the stored `powerOut`
values strictly greater than 0.  The source also filters `!isNaN(val)`,
which is vacuous because `powerOut` was already coerced away from `NaN`. -/
def powerOutputs (ps : List Reading) : List ℚ :=
  (ps.map Reading.powerOut).filter (fun v => 0 < v)

/-- Mean of a list, 0 when empty (`meanPower`). -/
def meanOf (xs : List ℚ) : ℚ :=
  if xs.length = 0 then 0 else xs.sum / (xs.length : ℚ)

/-- Population variance of a list, 0 when empty: the square of the
source's `stdDevPower`. -/
def varOf (xs : List ℚ) : ℚ :=
  if xs.length = 0 then 0
  else ((xs.map (fun v => (v - meanOf xs) ^ 2)).sum) / (xs.length : ℚ)

/-- `meanPower` of a batch. -/
def meanPower (ps : List Reading) : ℚ := meanOf (powerOutputs ps)

/-- The square of the source's `stdDevPower` for a batch. -/
def variancePower (ps : List Reading) : ℚ := varOf (powerOutputs ps)

/-- The aggregator's anomaly gate on a power value `x`
(`meanPower > 0 && stdDevPower > 0 && |x - meanPower| > 2*stdDevPower`),
stated on the variance: `stdDev > 0 ↔ variance > 0` and, both sides being
non-negative, `|d| > 2*stdDev ↔ d^2 > 4*variance`. -/
def isAnomalous (mean varp x : ℚ) : Bool :=
  decide (0 < mean) && decide (0 < varp) && decide (4 * varp < (x - mean) ^ 2)

/-- The data each alert message template interpolates (the source renders
these with fixed strings and `toFixed(2)`). -/
inductive MsgTemplate where
  | offlineTheft (panel : String)
  | lowPower (panel : String) (w : ℚ)
  | lowVoltage (panel : String) (v : ℚ)
  | anomaly (panel : String) (w : ℚ)
  | custom (m : String)
  | customFallback (metric condition : String) (value : ℚ)
  deriving DecidableEq, Repr

/-- A generated alert.  The source's `when` field is `occurredAt` here. -/
structure Alert where
  rid : ℤ
  id_panel : String
  alertMessage : MsgTemplate
  severityLevel : String
  occurredAt : ℤ
  deriving DecidableEq, Repr

/-- `rule.message || fallback`: the custom message unless it is empty. -/
def ruleMessage (ru : Rule) : MsgTemplate :=
  if ru.message ≠ "" then MsgTemplate.custom ru.message
  else MsgTemplate.customFallback ru.metric ru.condition ru.value

/-- The rule-engine condition from `processData`, on a reading's stored
`powerOut` and `voltage`.  `parseFloat(rule.value)` on the stored number
is the identity (the store only ever holds finite parsed values), so the
threshold is compared directly. -/
def ruleMatches (ru : Rule) (power voltage : ℚ) : Bool :=
  let value := if ru.metric = "power" then power else voltage
  if ru.condition = "<" then decide (value < ru.value)
  else if ru.condition = ">" then decide (ru.value < value)
  else if ru.condition = "=" then decide (value = ru.value)
  else false

/-- One alert pushed at counter `n` for reading `p`. -/
def mkAlert (env : Env) (n : ℕ) (p : Reading) (msg : MsgTemplate) (sev : String) : Alert :=
  { rid := env.clock n + n
    id_panel := p.id_panel
    alertMessage := msg
    severityLevel := sev
    occurredAt := p.observedAt }

/-- `alerts.push(...)` at the current counter, advancing it. -/
def pushAlert (env : Env) (p : Reading) (msg : MsgTemplate) (sev : String)
    (s : List Alert × ℕ) : List Alert × ℕ :=
  (s.1 ++ [mkAlert env s.2 p msg sev], s.2 + 1)

/-- The `rules.forEach` loop of the aggregator for one reading. -/
def ruleAlerts (env : Env) (p : Reading) : List Rule → ℕ → List Alert × ℕ
  | [], n => ([], n)
  | ru :: rus, n =>
    if ruleMatches ru p.powerOut p.voltage then
      let rest := ruleAlerts env p rus (n + 1)
      (mkAlert env n p (ruleMessage ru) ru.severity :: rest.1, rest.2)
    else ruleAlerts env p rus n

/-- The built-in alerts for one reading: offline (else low power), then
low voltage, then anomaly, exactly as `processData` pushes them. -/
def builtinAlerts (env : Env) (mean varp : ℚ) (p : Reading) (n : ℕ) : List Alert × ℕ :=
  let s1 : List Alert × ℕ :=
    if p.panelStatus = Status.offline then
      pushAlert env p (MsgTemplate.offlineTheft p.id_panel) "critical" ([], n)
    else if p.panelStatus = Status.low then
      pushAlert env p (MsgTemplate.lowPower p.id_panel p.powerOut) "warning" ([], n)
    else ([], n)
  let s2 : List Alert × ℕ :=
    if p.voltage < env.voltageThreshold then
      pushAlert env p (MsgTemplate.lowVoltage p.id_panel p.voltage) "warning" s1
    else s1
  if isAnomalous mean varp p.powerOut then
    pushAlert env p (MsgTemplate.anomaly p.id_panel p.powerOut) "warning" s2
  else s2

/-- All alerts one reading contributes: built-ins, then rule matches. -/
def alertsForReading (env : Env) (mean varp : ℚ) (p : Reading) (n : ℕ) : List Alert × ℕ :=
  let s := builtinAlerts env mean varp p n
  let t := ruleAlerts env p env.rules s.2
  (s.1 ++ t.1, t.2)

/-- `parsedData.map(...).flat()`: alerts in batch order. -/
def generateAlerts (env : Env) (mean varp : ℚ) : List Reading → ℕ → List Alert × ℕ
  | [], n => ([], n)
  | p :: ps, n =>
    let a := alertsForReading env mean varp p n
    let rest := generateAlerts env mean varp ps a.2
    (a.1 ++ rest.1, rest.2)

/-- The whole `processData` pipeline: parse, classify, batch statistics,
aggregate.  Returns (`parsedData`, `newAlerts`). -/
def processData (env : Env) (rows : List Row) : List Reading × List Alert :=
  let pr := parseRows env rows 0
  let out := generateAlerts env (meanPower pr.1) (variancePower pr.1) pr.1 pr.2
  (pr.1, out.1)

/-- A JavaScript form-field value: a string from the input element, or a
number when `editRule` copied a stored rule's threshold into the form. -/
inductive JsVal where
  | str (s : String)
  | num (q : ℚ)
  deriving DecidableEq, Repr

/-- JavaScript truthiness of a form value: `""` and `0` are falsy. -/
def jsTruthy : JsVal → Bool
  | JsVal.str s => s ≠ ""
  | JsVal.num q => q ≠ 0

/-- `parseFloat` applied to a form value: on a number it first renders it
and re-parses, the identity for the finite numbers the store holds. -/
def parseFloatVal : JsVal → Option ℚ
  | JsVal.str s => parseFloat s
  | JsVal.num q => some q

/-- The `ruleForm` state: a draft rule plus the edit-target id
(`editId`, `null` when creating). -/
structure RuleForm where
  metric : String
  condition : String
  value : JsVal
  severity : String
  message : String
  editId : Option ℤ
  deriving DecidableEq, Repr

/-- The blank form `saveRule` resets to. -/
def blankRuleForm : RuleForm :=
  { metric := "power"
    condition := "<"
    value := JsVal.str ""
    severity := "warning"
    message := ""
    editId := none }

/-- JavaScript truthiness of `ruleForm.editId`: `null` and `0` are falsy. -/
def editTruthy : Option ℤ → Bool
  | none => false
  | some i => i ≠ 0

/-- The rule-store state `saveRule` touches: the rule list and the form. -/
structure StoreState where
  rules : List Rule
  ruleForm : RuleForm
  deriving DecidableEq, Repr

/-- Whether `saveRule` accepted the draft (`rejected` models the
validation `alert(...)` followed by an early return). -/
inductive SaveResult where
  | rejected
  | saved
  deriving DecidableEq, Repr

/-- `saveRule` at current time `now` (`Date.now()`): validate
`!ruleForm.value || isNaN(parseFloat(ruleForm.value)) || !ruleForm.message`;
on success build the rule with id `editId || now` and either map-replace
(truthy `editId`) or append, then reset the form. -/
def saveRule (now : ℤ) (st : StoreState) : SaveResult × StoreState :=
  if !jsTruthy st.ruleForm.value || (parseFloatVal st.ruleForm.value).isNone
      || st.ruleForm.message = "" then
    (SaveResult.rejected, st)
  else
    let newId : ℤ := if editTruthy st.ruleForm.editId then st.ruleForm.editId.getD 0 else now
    let newRule : Rule :=
      { rid := newId
        metric := st.ruleForm.metric
        condition := st.ruleForm.condition
        value := (parseFloatVal st.ruleForm.value).getD 0
        severity := st.ruleForm.severity
        message := st.ruleForm.message }
    let rules2 :=
      if editTruthy st.ruleForm.editId then
        st.rules.map (fun r => if r.rid = st.ruleForm.editId.getD 0 then newRule else r)
      else st.rules ++ [newRule]
    (SaveResult.saved, { rules := rules2, ruleForm := blankRuleForm })

/-- `editRule`: pre-populate the form from an existing rule; the stored
numeric threshold lands in the form as a number, not a string. -/
def editRule (ru : Rule) (st : StoreState) : StoreState :=
  { st with ruleForm :=
      { metric := ru.metric
        condition := ru.condition
        value := JsVal.num ru.value
        severity := ru.severity
        message := ru.message
        editId := some ru.rid } }

/-- The semantic fields of an alert: everything but the generated id. -/
structure AlertData where
  id_panel : String
  alertMessage : MsgTemplate
  severityLevel : String
  occurredAt : ℤ
  deriving DecidableEq, Repr

/-- Erase an alert's id. -/
def Alert.toData (a : Alert) : AlertData :=
  { id_panel := a.id_panel
    alertMessage := a.alertMessage
    severityLevel := a.severityLevel
    occurredAt := a.occurredAt }

/-- The semantic fields of a reading: everything but the generated id. -/
structure ReadingData where
  id_panel : String
  powerOut : ℚ
  voltage : ℚ
  panelStatus : Status
  observedAt : ℤ
  deriving DecidableEq, Repr

/-- Erase a reading's id. -/
def Reading.toData (p : Reading) : ReadingData :=
  { id_panel := p.id_panel
    powerOut := p.powerOut
    voltage := p.voltage
    panelStatus := p.panelStatus
    observedAt := p.observedAt }

/-- Spec-side aggregator contract (spec §4.5), written from the spec's
words for the refinement claim: the alerts one reading contributes, ids
erased, in the fixed order (a) offline else (b) low power, (c) low
voltage, (d) anomaly, (e) rule matches in store order, every alert
carrying the reading's `panelId` and `observedAt`. -/
def specAlertsFor (vt : ℚ) (rules : List Rule) (mean varp : ℚ) (d : ReadingData) :
    List AlertData :=
  (if d.panelStatus = Status.offline then
    [{ id_panel := d.id_panel, alertMessage := MsgTemplate.offlineTheft d.id_panel,
       severityLevel := "critical", occurredAt := d.observedAt }]
  else if d.panelStatus = Status.low then
    [{ id_panel := d.id_panel, alertMessage := MsgTemplate.lowPower d.id_panel d.powerOut,
       severityLevel := "warning", occurredAt := d.observedAt }]
  else [])
  ++ (if d.voltage < vt then
    [{ id_panel := d.id_panel, alertMessage := MsgTemplate.lowVoltage d.id_panel d.voltage,
       severityLevel := "warning", occurredAt := d.observedAt }]
  else [])
  ++ (if isAnomalous mean varp d.powerOut then
    [{ id_panel := d.id_panel, alertMessage := MsgTemplate.anomaly d.id_panel d.powerOut,
       severityLevel := "warning", occurredAt := d.observedAt }]
  else [])
  ++ (rules.filter (fun ru => ruleMatches ru d.powerOut d.voltage)).map
      (fun ru =>
        { id_panel := d.id_panel, alertMessage := ruleMessage ru,
          severityLevel := ru.severity, occurredAt := d.observedAt })

/-- The clock-free semantic content of a valid row whose timestamp
parses: what `parseRow` produces, ids and the current-time fallback
aside. -/
def pureRow (pt : ℚ) (r : Row) : ReadingData :=
  { id_panel := r.id_panel
    powerOut := (parseFloat r.power).getD 0
    voltage := (parseFloat r.voltage).getD 0
    panelStatus := classify (parseFloat r.power) pt
    observedAt := (parseDate r.timestamp).getD 0 }

/-- The id minted at counter value `m`: `Date.now() + tempId`. -/
def idOf (clock : ℕ → ℤ) (m : ℕ) : ℤ := clock m + m

/-- The alerts `as` were minted at strictly increasing counter values in
`[n, n2)`, each id being `idOf` of its counter value. -/
def IdSeg (clock : ℕ → ℤ) (n n2 : ℕ) (as : List Alert) : Prop :=
  n ≤ n2 ∧ ∃ ms : List ℕ, as.map Alert.rid = ms.map (idOf clock) ∧
    ms.Pairwise (· < ·) ∧ ∀ m ∈ ms, n ≤ m ∧ m < n2

/-- A store editing a draft whose edit-target id (5) matches no rule. -/
def ghostEditState : StoreState :=
  { rules := []
    ruleForm := { metric := "power", condition := "<", value := JsVal.str "10",
                  severity := "warning", message := "mm", editId := some 5 } }

/-- A store holding a creation draft whose value is the number `0`. -/
def zeroValueState : StoreState :=
  { rules := []
    ruleForm := { metric := "power", condition := "<", value := JsVal.num 0,
                  severity := "warning", message := "mm", editId := none } }

/-- A stored rule whose threshold is the number `0`. -/
def zeroRule : Rule :=
  { rid := 3, metric := "power", condition := "<", value := 0,
    severity := "warning", message := "mm" }

/-- A store holding `zeroRule` with no edit in progress. -/
def zeroRuleStore : StoreState := { rules := [zeroRule], ruleForm := blankRuleForm }

/-- A row whose timestamp does not parse as a date. -/
def rowBadTs : Row := { id_panel := "P", power := "0", voltage := "300", timestamp := "bad" }

/-- The same row with a parseable timestamp. -/
def rowGoodTs : Row := { id_panel := "P", power := "30", voltage := "300", timestamp := "1" }

/-- A run environment whose clock reads 100 throughout. -/
def envClockA : Env :=
  { clock := fun _ => 100, powerThreshold := 50, voltageThreshold := 200, rules := [] }

/-- The identical environment run later: the clock reads 200 throughout. -/
def envClockB : Env :=
  { clock := fun _ => 200, powerThreshold := 50, voltageThreshold := 200, rules := [] }

/-- An environment with a monotone (identity) clock. -/
def envMono : Env :=
  { clock := fun n => (n : ℤ), powerThreshold := 50, voltageThreshold := 200, rules := [] }

/-- One row that triggers two alerts (low power and low voltage). -/
def rowsMulti : List Row :=
  [{ id_panel := "P", power := "30", voltage := "150", timestamp := "1" }]

theorem parseRows_eq_filter_mapIdx (env : Env) (rows : List Row) (n : ℕ) :
    (parseRows env rows n).1 =
      (rows.filter rowValid).mapIdx (fun i row => parseRow env (n + i) row) := by
  induction rows generalizing n with
  | nil => rfl
  | cons r rs ih =>
    by_cases h : rowValid r
    · rw [parseRows]
      simp only [h, if_true, List.filter_cons, List.mapIdx_cons]
      congr 1
      rw [ih (n + 1)]
      congr 1
      funext i row
      congr 1
      omega
    · rw [parseRows]
      simp only [h, Bool.false_eq_true, if_false, List.filter_cons]
      exact ih n

/-- C5: a Reading is produced for a row iff all four fields `id_panel`,
`power`, `voltage`, `timestamp` are present (non-empty); the parsed batch
is exactly the valid rows, in input order, one Reading per valid row (no
drop, no duplication); and an invalid row is silently skipped, leaving
the output unchanged. -/
theorem parser_contract (env : Env) (n : ℕ) (rows rows1 rows2 : List Row) (r : Row) :
    (rowValid r = true ↔
      r.id_panel ≠ "" ∧ r.power ≠ "" ∧ r.voltage ≠ "" ∧ r.timestamp ≠ "") ∧
    (parseRows env rows n).1 =
      (rows.filter rowValid).mapIdx (fun i row => parseRow env (n + i) row) ∧
    (rowValid r = false →
      (parseRows env (rows1 ++ r :: rows2) n).1 = (parseRows env (rows1 ++ rows2) n).1) := by
  refine ⟨?_, parseRows_eq_filter_mapIdx env rows n, ?_⟩
  · simp [rowValid, strTruthy, and_assoc]
  · intro h
    rw [parseRows_eq_filter_mapIdx, parseRows_eq_filter_mapIdx,
      List.filter_append, List.filter_append, List.filter_cons]
    simp [h]

/-- C2: classification is `offline` iff the parsed power is `NaN` or `0`;
otherwise `low` iff it is strictly below the threshold, else `normal`.
In particular with threshold 50: 0 → offline, NaN → offline, 49 → low,
50 → normal. -/
theorem classify_contract (power : Option ℚ) (t : ℚ) :
    (classify power t = Status.offline ↔ power = none ∨ power = some 0) ∧
    (∀ p : ℚ, power = some p → p ≠ 0 →
      ((classify power t = Status.low ↔ p < t) ∧
       (classify power t = Status.normal ↔ ¬ p < t))) ∧
    classify (some 0) 50 = Status.offline ∧
    classify none 50 = Status.offline ∧
    classify (some 49) 50 = Status.low ∧
    classify (some 50) 50 = Status.normal := by
  refine ⟨?_, ?_, by decide, by decide, by decide, by decide⟩
  · cases power with
    | none => simp [classify]
    | some p =>
      by_cases h0 : p = 0
      · subst h0; simp [classify]
      · by_cases hlt : p < t <;> simp [classify, h0, hlt]
  · rintro p rfl h0
    by_cases hlt : p < t <;> simp [classify, h0, hlt]

theorem varOf_nonneg (xs : List ℚ) : 0 ≤ varOf xs := by
  unfold varOf
  split
  · exact le_refl 0
  · apply div_nonneg
    · apply List.sum_nonneg
      intro x hx
      obtain ⟨v, _, rfl⟩ := List.mem_map.1 hx
      positivity
    · positivity

theorem meanPower_pos_of_variancePower_pos (ps : List Reading)
    (h : 0 < variancePower ps) : 0 < meanPower ps := by
  have hne : powerOutputs ps ≠ [] := by
    intro he
    rw [variancePower, he] at h
    simp [varOf] at h
  have hpos : ∀ x ∈ powerOutputs ps, 0 < x := by
    intro x hx
    have := List.mem_filter.1 hx
    simpa using this.2
  rw [meanPower, meanOf]
  have hlen : (powerOutputs ps).length ≠ 0 := fun he => hne (List.length_eq_zero.1 he)
  simp only [hlen, if_false]
  apply div_pos (List.sum_pos _ hpos hne)
  exact_mod_cast Nat.pos_of_ne_zero hlen

theorem anomaly_sqrt_iff (mean varp x : ℚ) (hv : 0 ≤ varp) :
    4 * varp < (x - mean) ^ 2 ↔
      2 * Real.sqrt (varp : ℝ) < |(x : ℝ) - (mean : ℝ)| := by
  have h4 : Real.sqrt 4 = 2 := by
    rw [show (4 : ℝ) = 2 ^ 2 by norm_num, Real.sqrt_sq (by norm_num)]
  have hm : Real.sqrt (4 * (varp : ℝ)) = 2 * Real.sqrt (varp : ℝ) := by
    rw [Real.sqrt_mul (by norm_num : (0:ℝ) ≤ 4), h4]
  have habs : |(x : ℝ) - (mean : ℝ)| = Real.sqrt (((x : ℝ) - (mean : ℝ)) ^ 2) := by
    rw [Real.sqrt_sq_eq_abs]
  rw [← hm, habs]
  rw [Real.sqrt_lt_sqrt_iff (by positivity)]
  constructor
  · intro h; exact_mod_cast h
  · intro h; exact_mod_cast h

/-- C3: the statistics baseline is exactly the stored power values that
are strictly positive (all stored values are valid numbers); the mean and
the standard deviation are computed over that subset; when the subset is
empty both are 0 and nothing is anomalous; and any reading is anomalous
iff `stdDev > 0` and `|powerOut - mean| > 2 * stdDev` — the source's
extra `mean > 0` conjunct is implied, so the two-sigma rule is exact. -/
theorem statistics_contract (ps : List Reading) (p : Reading) :
    (∀ v : ℚ, v ∈ powerOutputs ps ↔ v ∈ ps.map Reading.powerOut ∧ 0 < v) ∧
    meanPower ps = meanOf (powerOutputs ps) ∧
    variancePower ps = varOf (powerOutputs ps) ∧
    (powerOutputs ps = [] → meanPower ps = 0 ∧ variancePower ps = 0 ∧
      isAnomalous (meanPower ps) (variancePower ps) p.powerOut = false) ∧
    (isAnomalous (meanPower ps) (variancePower ps) p.powerOut = true ↔
      0 < Real.sqrt (variancePower ps : ℝ) ∧
      2 * Real.sqrt (variancePower ps : ℝ) < |(p.powerOut : ℝ) - (meanPower ps : ℝ)|) := by
  refine ⟨?_, rfl, rfl, ?_, ?_⟩
  · intro v
    simp [powerOutputs, List.mem_filter]
  · intro he
    rw [meanPower, variancePower, he]
    refine ⟨rfl, rfl, ?_⟩
    simp [isAnomalous, varOf]
  · constructor
    · intro h
      simp only [isAnomalous, Bool.and_eq_true, decide_eq_true_eq] at h
      obtain ⟨⟨_, hv⟩, hd⟩ := h
      refine ⟨?_, ?_⟩
      · rw [Real.sqrt_pos]; exact_mod_cast hv
      · exact (anomaly_sqrt_iff (meanPower ps) (variancePower ps) p.powerOut
          (varOf_nonneg _)).1 hd
    · rintro ⟨h1, h2⟩
      have hv : 0 < variancePower ps := by
        rw [Real.sqrt_pos] at h1; exact_mod_cast h1
      have hm : 0 < meanPower ps := meanPower_pos_of_variancePower_pos ps hv
      have hd : 4 * variancePower ps < (p.powerOut - meanPower ps) ^ 2 :=
        (anomaly_sqrt_iff (meanPower ps) (variancePower ps) p.powerOut
          (varOf_nonneg _)).2 h2
      simp [isAnomalous, hm, hv, hd]

theorem ruleAlerts_toData (env : Env) (p : Reading) (rules : List Rule) (n : ℕ) :
    ((ruleAlerts env p rules n).1).map Alert.toData =
      (rules.filter (fun ru => ruleMatches ru p.powerOut p.voltage)).map
        (fun ru => { id_panel := p.id_panel, alertMessage := ruleMessage ru,
                     severityLevel := ru.severity, occurredAt := p.observedAt }) := by
  induction rules generalizing n with
  | nil => rfl
  | cons ru rus ih =>
    by_cases h : ruleMatches ru p.powerOut p.voltage
    · simp [ruleAlerts, h, List.filter_cons, ih, mkAlert, Alert.toData]
    · simp [ruleAlerts, h, List.filter_cons, ih]

/-- C4: a rule matches a reading iff the compared value (power for
`metric = 'power'`, else voltage) satisfies its condition (`<`, `>`, or
exact `=`); every match yields exactly one alert with the rule's
severity, in store order, with no deduplication; and
`Rule (power < 100)` matches `powerOut = 50` but not `powerOut = 150`. -/
theorem ruleEngine_contract (ru : Rule) (p : Reading) (env : Env) (n : ℕ) :
    (ru.condition = "<" →
      (ruleMatches ru p.powerOut p.voltage = true ↔
        (if ru.metric = "power" then p.powerOut else p.voltage) < ru.value)) ∧
    (ru.condition = ">" →
      (ruleMatches ru p.powerOut p.voltage = true ↔
        ru.value < (if ru.metric = "power" then p.powerOut else p.voltage))) ∧
    (ru.condition = "=" →
      (ruleMatches ru p.powerOut p.voltage = true ↔
        (if ru.metric = "power" then p.powerOut else p.voltage) = ru.value)) ∧
    ((ruleAlerts env p env.rules n).1).map Alert.toData =
      (env.rules.filter (fun r => ruleMatches r p.powerOut p.voltage)).map
        (fun r => { id_panel := p.id_panel, alertMessage := ruleMessage r,
                    severityLevel := r.severity, occurredAt := p.observedAt }) ∧
    ruleMatches { rid := 1, metric := "power", condition := "<", value := 100,
                  severity := "critical", message := "m" } 50 220 = true ∧
    ruleMatches { rid := 1, metric := "power", condition := "<", value := 100,
                  severity := "critical", message := "m" } 150 220 = false := by
  refine ⟨?_, ?_, ?_, ruleAlerts_toData env p env.rules n, by decide, by decide⟩
  · intro h; simp [ruleMatches, h]
  · intro h; simp [ruleMatches, h]
  · intro h; simp [ruleMatches, h]

theorem builtinAlerts_toData (env : Env) (mean varp : ℚ) (p : Reading) (n : ℕ) :
    ((builtinAlerts env mean varp p n).1).map Alert.toData =
      ((if p.panelStatus = Status.offline then
        [{ id_panel := p.id_panel, alertMessage := MsgTemplate.offlineTheft p.id_panel,
           severityLevel := "critical", occurredAt := p.observedAt }]
      else if p.panelStatus = Status.low then
        [{ id_panel := p.id_panel, alertMessage := MsgTemplate.lowPower p.id_panel p.powerOut,
           severityLevel := "warning", occurredAt := p.observedAt }]
      else [])
      ++ (if p.voltage < env.voltageThreshold then
        [{ id_panel := p.id_panel, alertMessage := MsgTemplate.lowVoltage p.id_panel p.voltage,
           severityLevel := "warning", occurredAt := p.observedAt }]
      else [])
      ++ (if isAnomalous mean varp p.powerOut then
        [{ id_panel := p.id_panel, alertMessage := MsgTemplate.anomaly p.id_panel p.powerOut,
           severityLevel := "warning", occurredAt := p.observedAt }]
      else []) : List AlertData) := by
  cases hs : p.panelStatus <;>
    by_cases hv : p.voltage < env.voltageThreshold <;>
    by_cases ha : isAnomalous mean varp p.powerOut = true <;>
    simp [builtinAlerts, pushAlert, mkAlert, Alert.toData, hs, hv, ha]

theorem alertsForReading_toData (env : Env) (mean varp : ℚ) (p : Reading) (n : ℕ) :
    ((alertsForReading env mean varp p n).1).map Alert.toData =
      specAlertsFor env.voltageThreshold env.rules mean varp p.toData := by
  rw [alertsForReading]
  dsimp only
  rw [List.map_append, builtinAlerts_toData, ruleAlerts_toData, specAlertsFor]
  simp [Reading.toData, List.append_assoc]

theorem generateAlerts_toData (env : Env) (mean varp : ℚ) (ps : List Reading) (n : ℕ) :
    ((generateAlerts env mean varp ps n).1).map Alert.toData =
      (ps.map Reading.toData).flatMap
        (specAlertsFor env.voltageThreshold env.rules mean varp) := by
  induction ps generalizing n with
  | nil => rfl
  | cons p ps ih =>
    rw [generateAlerts]
    dsimp only
    rw [List.map_append, alertsForReading_toData, ih]
    simp

/-- C1: ids erased, the alert sequence of a run is exactly the batch's
readings, in order, each contributing its spec-ordered block — (a)
critical offline/theft, else (b) warning low power; then (c) warning low
voltage whenever `voltage < voltageThreshold` regardless of status; then
(d) warning anomaly; then (e) one alert per matching rule in store order
— with every alert carrying that reading's `panelId` and `observedAt`. -/
theorem aggregator_contract (env : Env) (rows : List Row) :
    ((processData env rows).2).map Alert.toData =
      (((processData env rows).1).map Reading.toData).flatMap
        (specAlertsFor env.voltageThreshold env.rules
          (meanPower (processData env rows).1) (variancePower (processData env rows).1)) := by
  show ((generateAlerts env (meanPower (parseRows env rows 0).1)
      (variancePower (parseRows env rows 0).1) (parseRows env rows 0).1
      (parseRows env rows 0).2).1).map Alert.toData = _
  rw [generateAlerts_toData]
  rfl

theorem parseRow_toData (env : Env) (n : ℕ) (r : Row)
    (h : (parseDate r.timestamp).isSome = true) :
    (parseRow env n r).toData = pureRow env.powerThreshold r := by
  obtain ⟨t, ht⟩ := Option.isSome_iff_exists.1 h
  simp [parseRow, Reading.toData, pureRow, ht]

theorem parseRows_toData (env : Env) (rows : List Row) (n : ℕ)
    (h : ∀ r ∈ rows, rowValid r = true → (parseDate r.timestamp).isSome = true) :
    ((parseRows env rows n).1).map Reading.toData =
      (rows.filter rowValid).map (pureRow env.powerThreshold) := by
  induction rows generalizing n with
  | nil => rfl
  | cons r rs ih =>
    have hrs : ∀ x ∈ rs, rowValid x = true → (parseDate x.timestamp).isSome = true :=
      fun x hx => h x (List.mem_cons_of_mem r hx)
    by_cases hr : rowValid r
    · rw [parseRows]
      simp only [hr, if_true, List.filter_cons, List.map_cons]
      rw [parseRow_toData env n r (h r (List.mem_cons_self r rs) hr), ih (n + 1) hrs]
    · rw [parseRows]
      simp only [hr, Bool.false_eq_true, if_false, List.filter_cons]
      exact ih n hrs

theorem powerOutputs_eq_data (ps : List Reading) :
    powerOutputs ps =
      ((ps.map Reading.toData).map ReadingData.powerOut).filter (fun v => decide (0 < v)) := by
  rw [powerOutputs, List.map_map]
  rfl

/-- C8 counterexample: a batch whose one valid row has an unparseable
timestamp.  The reading's `observedAt` falls back to the processing-time
clock, so two runs that differ only in when they happen (clocks 100 and
200) produce alerts whose semantic timestamp fields differ, refuting the
claim that semantic fields always match one-to-one. -/
theorem idempotence_cex :
    envClockA.powerThreshold = envClockB.powerThreshold ∧
    envClockA.voltageThreshold = envClockB.voltageThreshold ∧
    envClockA.rules = envClockB.rules ∧
    ((processData envClockA [rowBadTs]).2).map Alert.toData ≠
      ((processData envClockB [rowBadTs]).2).map Alert.toData := by
  refine ⟨rfl, rfl, rfl, ?_⟩
  simp +decide [processData, parseRows, parseRow, generateAlerts, alertsForReading,
    builtinAlerts, ruleAlerts, pushAlert, mkAlert, meanPower, variancePower, powerOutputs,
    meanOf, varOf, isAnomalous, classify, parseFloat, parseFloatCore, parseDate,
    takeDigits, natOfDigits, fracOfDigits, List.dropWhile, rowValid, strTruthy,
    Alert.toData, rowBadTs, envClockA, envClockB]

/-- C8 (amended): re-running an identical batch with the same thresholds
and an unchanged rule store yields an alert sequence whose semantic
fields (panelId, message, severity, timestamp) match one-to-one in order
— ids may differ — provided every valid row's timestamp parses (a row
with an unparseable timestamp receives the processing time, which
differs between runs). -/
theorem idempotence_content (env1 env2 : Env) (rows : List Row)
    (hp : env1.powerThreshold = env2.powerThreshold)
    (hv : env1.voltageThreshold = env2.voltageThreshold)
    (hr : env1.rules = env2.rules)
    (hts : ∀ r ∈ rows, rowValid r = true → (parseDate r.timestamp).isSome = true) :
    ((processData env1 rows).2).map Alert.toData =
      ((processData env2 rows).2).map Alert.toData := by
  have h1 := parseRows_toData env1 rows 0 hts
  have h2 := parseRows_toData env2 rows 0 hts
  rw [hp] at h1
  have hdata : ((parseRows env1 rows 0).1).map Reading.toData =
      ((parseRows env2 rows 0).1).map Reading.toData := by rw [h1, h2]
  have hpo : powerOutputs (parseRows env1 rows 0).1 = powerOutputs (parseRows env2 rows 0).1 := by
    rw [powerOutputs_eq_data, powerOutputs_eq_data, hdata]
  have hmean : meanPower (parseRows env1 rows 0).1 = meanPower (parseRows env2 rows 0).1 := by
    rw [meanPower, meanPower, hpo]
  have hvar : variancePower (parseRows env1 rows 0).1 = variancePower (parseRows env2 rows 0).1 := by
    rw [variancePower, variancePower, hpo]
  show ((generateAlerts env1 (meanPower (parseRows env1 rows 0).1)
      (variancePower (parseRows env1 rows 0).1) (parseRows env1 rows 0).1
      (parseRows env1 rows 0).2).1).map Alert.toData =
    ((generateAlerts env2 (meanPower (parseRows env2 rows 0).1)
      (variancePower (parseRows env2 rows 0).1) (parseRows env2 rows 0).1
      (parseRows env2 rows 0).2).1).map Alert.toData
  rw [generateAlerts_toData, generateAlerts_toData, hdata, hv, hr, hmean, hvar]

/-- Witness for C8 (amended) at a concrete batch whose timestamp parses:
two runs at different clock readings agree on all semantic fields. -/
theorem idempotence_content_witness :
    ((processData envClockA [rowGoodTs]).2).map Alert.toData =
      ((processData envClockB [rowGoodTs]).2).map Alert.toData :=
  idempotence_content envClockA envClockB [rowGoodTs] rfl rfl rfl (by decide)

theorem IdSeg.nil (clock : ℕ → ℤ) (n : ℕ) : IdSeg clock n n [] :=
  ⟨le_refl n, [], rfl, List.Pairwise.nil, by simp⟩

theorem IdSeg.append {clock : ℕ → ℤ} {n1 n2 n3 : ℕ} {as bs : List Alert}
    (h1 : IdSeg clock n1 n2 as) (h2 : IdSeg clock n2 n3 bs) :
    IdSeg clock n1 n3 (as ++ bs) := by
  obtain ⟨hle1, ms1, hm1, hp1, hb1⟩ := h1
  obtain ⟨hle2, ms2, hm2, hp2, hb2⟩ := h2
  refine ⟨le_trans hle1 hle2, ms1 ++ ms2, ?_, ?_, ?_⟩
  · rw [List.map_append, List.map_append, hm1, hm2]
  · rw [List.pairwise_append]
    exact ⟨hp1, hp2, fun a ha b hb => lt_of_lt_of_le (hb1 a ha).2 (hb2 b hb).1⟩
  · intro m hm
    rcases List.mem_append.1 hm with h | h
    · exact ⟨(hb1 m h).1, lt_of_lt_of_le (hb1 m h).2 hle2⟩
    · exact ⟨le_trans hle1 (hb2 m h).1, (hb2 m h).2⟩

theorem IdSeg.single (env : Env) (p : Reading) (msg : MsgTemplate) (sev : String) (n : ℕ) :
    IdSeg env.clock n (n + 1) [mkAlert env n p msg sev] :=
  ⟨Nat.le_succ n, [n], rfl, List.pairwise_singleton _ n, by simp⟩

theorem IdSeg.push {env : Env} {p : Reading} {msg : MsgTemplate} {sev : String}
    {n : ℕ} {s : List Alert × ℕ} (h : IdSeg env.clock n s.2 s.1) :
    IdSeg env.clock n (pushAlert env p msg sev s).2 (pushAlert env p msg sev s).1 :=
  h.append (IdSeg.single env p msg sev s.2)

theorem builtinAlerts_IdSeg (env : Env) (mean varp : ℚ) (p : Reading) (n : ℕ) :
    IdSeg env.clock n (builtinAlerts env mean varp p n).2 (builtinAlerts env mean varp p n).1 := by
  rw [builtinAlerts]
  cases hs : p.panelStatus <;>
    by_cases hv : p.voltage < env.voltageThreshold <;>
    by_cases ha : isAnomalous mean varp p.powerOut = true <;>
    simp only [hs, hv, ha, if_true, if_false, Bool.false_eq_true, reduceCtorEq] <;>
    first
      | exact IdSeg.nil env.clock n
      | exact (IdSeg.nil env.clock n).push
      | exact ((IdSeg.nil env.clock n).push).push
      | exact (((IdSeg.nil env.clock n).push).push).push

theorem ruleAlerts_IdSeg (env : Env) (p : Reading) (rules : List Rule) (n : ℕ) :
    IdSeg env.clock n (ruleAlerts env p rules n).2 (ruleAlerts env p rules n).1 := by
  induction rules generalizing n with
  | nil => exact IdSeg.nil env.clock n
  | cons ru rus ih =>
    rw [ruleAlerts]
    by_cases h : ruleMatches ru p.powerOut p.voltage <;>
      simp only [h, if_true, if_false, Bool.false_eq_true]
    · have hseg := (IdSeg.single env p (ruleMessage ru) ru.severity n).append (ih (n + 1))
      simpa using hseg
    · exact ih n

theorem alertsForReading_IdSeg (env : Env) (mean varp : ℚ) (p : Reading) (n : ℕ) :
    IdSeg env.clock n (alertsForReading env mean varp p n).2 (alertsForReading env mean varp p n).1 := by
  rw [alertsForReading]
  exact (builtinAlerts_IdSeg env mean varp p n).append
    (ruleAlerts_IdSeg env p env.rules (builtinAlerts env mean varp p n).2)

theorem generateAlerts_IdSeg (env : Env) (mean varp : ℚ) (ps : List Reading) (n : ℕ) :
    IdSeg env.clock n (generateAlerts env mean varp ps n).2 (generateAlerts env mean varp ps n).1 := by
  induction ps generalizing n with
  | nil => exact IdSeg.nil env.clock n
  | cons p ps ih =>
    rw [generateAlerts]
    exact (alertsForReading_IdSeg env mean varp p n).append
      (ih (alertsForReading env mean varp p n).2)

theorem IdSeg.rid_pairwise_ne {clock : ℕ → ℤ} {n n2 : ℕ} {as : List Alert}
    (h : IdSeg clock n n2 as) (hmono : Monotone clock) :
    (as.map Alert.rid).Pairwise (· ≠ ·) := by
  obtain ⟨-, ms, hm, hp, -⟩ := h
  rw [hm]
  refine List.Pairwise.map _ (fun a b hab => ?_) hp
  have h1 : clock a ≤ clock b := hmono (le_of_lt hab)
  have h2 : (a : ℤ) < (b : ℤ) := by exact_mod_cast hab
  exact ne_of_lt (add_lt_add_of_le_of_lt h1 h2)

/-- C9: with a non-decreasing clock, every alert id minted in one
`processData` pass (`Date.now()` plus the strictly increasing `tempId`
counter) is distinct from every other, even when several alerts come
from the same reading. -/
theorem alert_ids_unique (env : Env) (rows : List Row) (hmono : Monotone env.clock) :
    (((processData env rows).2).map Alert.rid).Pairwise (· ≠ ·) := by
  have h := generateAlerts_IdSeg env (meanPower (parseRows env rows 0).1)
    (variancePower (parseRows env rows 0).1) (parseRows env rows 0).1 (parseRows env rows 0).2
  exact h.rid_pairwise_ne hmono

/-- Witness for C9: a monotone clock and a batch whose single reading
produces two alerts (low power and low voltage). -/
theorem alert_ids_unique_witness :
    (((processData envMono rowsMulti).2).map Alert.rid).Pairwise (· ≠ ·) :=
  alert_ids_unique envMono rowsMulti
    (fun a b h => by show ((a : ℕ) : ℤ) ≤ ((b : ℕ) : ℤ); exact_mod_cast h)

/-- C7 (amended): `saveRule` rejects exactly when the draft's value field
is falsy (the empty string, or the number 0 as pre-populated by an
edit), or it does not parse to a number, or the message is empty; on
rejection the rule list and the editing state — draft included — are
untouched, and on success the form resets to idle (draft and edit-target
id cleared). -/
theorem saveRule_validation (now : ℤ) (st : StoreState) :
    ((saveRule now st).1 = SaveResult.rejected ↔
      jsTruthy st.ruleForm.value = false ∨ parseFloatVal st.ruleForm.value = none ∨
        st.ruleForm.message = "") ∧
    ((saveRule now st).1 = SaveResult.rejected → (saveRule now st).2 = st) ∧
    ((saveRule now st).1 = SaveResult.saved → (saveRule now st).2.ruleForm = blankRuleForm) := by
  cases hc : (!jsTruthy st.ruleForm.value || (parseFloatVal st.ruleForm.value).isNone
      || st.ruleForm.message = "") with
  | true =>
    have hd : jsTruthy st.ruleForm.value = false ∨ parseFloatVal st.ruleForm.value = none ∨
        st.ruleForm.message = "" := by
      simpa [Bool.or_eq_true, Bool.not_eq_true', Option.isNone_iff_eq_none, or_assoc] using hc
    rw [saveRule]
    simp [hc, hd]
  | false =>
    have hd : ¬(jsTruthy st.ruleForm.value = false ∨ parseFloatVal st.ruleForm.value = none ∨
        st.ruleForm.message = "") := by
      intro hor
      have hT : (!jsTruthy st.ruleForm.value || (parseFloatVal st.ruleForm.value).isNone
          || st.ruleForm.message = "") = true := by
        rcases hor with h | h | h <;> simp [h]
      rw [hc] at hT
      exact absurd hT (by decide)
    rw [saveRule]
    simp [hc, hd]

/-- C7 counterexample: a draft whose threshold is the finite number 0
with a non-empty message is rejected, refuting "rejected exactly when
the threshold is not a finite number or the message is empty". -/
theorem saveRule_validation_cex :
    (parseFloatVal zeroValueState.ruleForm.value).isSome = true ∧
    zeroValueState.ruleForm.message ≠ "" ∧
    (saveRule 1 zeroValueState).1 = SaveResult.rejected := by
  refine ⟨rfl, by decide, ?_⟩
  simp +decide [saveRule, zeroValueState, jsTruthy, parseFloatVal]

/-- C6 (amended): a valid save whose truthy edit-target id matches no
stored rule leaves the rule list unchanged — the in-place `map` replaces
nothing and no rule is appended — while the form still resets to idle. -/
theorem saveRule_ghost_edit (now : ℤ) (st : StoreState)
    (hid : editTruthy st.ruleForm.editId = true)
    (habs : ∀ r ∈ st.rules, some r.rid ≠ st.ruleForm.editId)
    (hok : (saveRule now st).1 = SaveResult.saved) :
    (saveRule now st).2.rules = st.rules ∧
    (saveRule now st).2.ruleForm = blankRuleForm := by
  cases hc : (!jsTruthy st.ruleForm.value || (parseFloatVal st.ruleForm.value).isNone
      || st.ruleForm.message = "") with
  | true =>
    rw [saveRule] at hok
    simp only [hc, if_true] at hok
    exact absurd hok (by decide)
  | false =>
    rw [saveRule]
    simp only [hc, Bool.false_eq_true, if_false, hid, if_true]
    refine ⟨?_, trivial⟩
    conv_rhs => rw [← List.map_id st.rules]
    apply List.map_congr_left
    intro r hr
    have hne : ¬ r.rid = st.ruleForm.editId.getD 0 := by
      cases h : st.ruleForm.editId with
      | none => rw [h] at hid; simp [editTruthy] at hid
      | some i =>
        have hx := habs r hr
        rw [h] at hx
        simpa using hx
    simp [hne, id]

/-- Witness for C6 (amended): the concrete ghost-edit store. -/
theorem saveRule_ghost_edit_witness :
    (saveRule 999 ghostEditState).2.rules = ghostEditState.rules ∧
    (saveRule 999 ghostEditState).2.ruleForm = blankRuleForm :=
  saveRule_ghost_edit 999 ghostEditState (by decide) (by decide)
    (by simp +decide [saveRule, ghostEditState, jsTruthy, parseFloatVal, parseFloat,
      parseFloatCore, takeDigits, natOfDigits, fracOfDigits, List.dropWhile])

/-- C6 counterexample: saving a valid draft whose edit id (5) exists in
no stored rule succeeds but does NOT append — the rule list does not
grow by one, refuting "save on a nonexistent edit id behaves as
create". -/
theorem saveRule_ghost_edit_cex :
    ghostEditState.ruleForm.editId = some 5 ∧
    ghostEditState.rules = [] ∧
    (saveRule 999 ghostEditState).1 = SaveResult.saved ∧
    (saveRule 999 ghostEditState).2.rules.length ≠ ghostEditState.rules.length + 1 := by
  refine ⟨rfl, rfl, ?_, ?_⟩ <;>
    simp +decide [saveRule, ghostEditState, jsTruthy, parseFloatVal, parseFloat,
      parseFloatCore, takeDigits, natOfDigits, fracOfDigits, List.dropWhile, editTruthy]

/-- C10: `editRule` copies a stored rule's numeric threshold into the
form; when that threshold is the number 0 the draft's value is falsy, so
an unmodified save is rejected (the store keeps the editing state) even
though 0 parses as a finite number and the message is non-empty. -/
theorem editRule_zero_threshold (now : ℤ) (st : StoreState) (ru : Rule)
    (hval : ru.value = 0) (hmsg : ru.message ≠ "") :
    (saveRule now (editRule ru st)).1 = SaveResult.rejected ∧
    (saveRule now (editRule ru st)).2 = editRule ru st ∧
    (parseFloatVal (editRule ru st).ruleForm.value).isSome = true := by
  cases hc : (!jsTruthy (editRule ru st).ruleForm.value
      || (parseFloatVal (editRule ru st).ruleForm.value).isNone
      || (editRule ru st).ruleForm.message = "") with
  | true =>
    rw [saveRule]
    refine ⟨by simp [hc], by simp [hc], by simp [editRule, parseFloatVal]⟩
  | false =>
    exfalso
    simp [editRule, jsTruthy, hval] at hc

/-- Witness for C10: the concrete zero-threshold rule. -/
theorem editRule_zero_threshold_witness :
    (saveRule 7 (editRule zeroRule zeroRuleStore)).1 = SaveResult.rejected ∧
    (saveRule 7 (editRule zeroRule zeroRuleStore)).2 = editRule zeroRule zeroRuleStore ∧
    (parseFloatVal (editRule zeroRule zeroRuleStore).ruleForm.value).isSome = true :=
  editRule_zero_threshold 7 zeroRuleStore zeroRule (by decide) (by decide)
